import Mathlib

/-!
Verification of `spotify_playlist_generator.py` against its specification.

The Python script is embedded shallowly.  Network effects (HTTP responses,
the interactive browser/console steps) are passed in as explicit oracle
arguments, and every function additionally returns the list of observable
events (endpoint calls, state-file writes, sleeps) it performs, in order.
All loops are embedded with a structural fuel argument equal to the exact
iteration bound of the Python loop, so every definition reduces by `rfl`.
-/

namespace SPG

/-- A JSON value, as returned by `response.json()` in the Python code. -/
inductive JVal : Type where
  | null : JVal
  | bool (b : Bool) : JVal
  | num (n : Int) : JVal
  | str (s : String) : JVal
  | arr (xs : List JVal) : JVal
  | obj (fields : List (String × JVal)) : JVal

/-- Python truthiness of a JSON value (`if result:`): `None`, `False`, `0`,
`""`, `[]` and `{}` are falsy, everything else is truthy. -/
def JVal.truthy : JVal → Bool
  | .null => false
  | .bool b => b
  | .num n => n != 0
  | .str s => !(s == "")
  | .arr xs => !xs.isEmpty
  | .obj fields => !fields.isEmpty

/-- One attempt of the HTTP layer underneath `make_spotify_request`:
either `requests` raises a `RequestException`, or a response arrives with a
status code, an optional integer `Retry-After` header, and a body
(`none` models an empty `response.text`; `some j` a body parsing to `j`). -/
inductive HttpAttempt : Type where
  | netError : HttpAttempt
  | response (status : Nat) (retryAfter : Option Nat) (body : Option JVal) : HttpAttempt

/-- The retry loop of `make_spotify_request` (lines 166-203).
`attempts k` is the response to the request issued when the Python variable
`retries` equals `k` (each loop iteration issues exactly one request and
either returns or increments `retries`).  `fuel` counts the remaining loop
iterations permitted by the guard `retries <= max_retries`; the caller
passes `max_retries + 1 - retries`.  The second component collects the
arguments of the `time.sleep` calls, in order. -/
def msrGo (attempts : Nat → HttpAttempt) (max_retries : Nat) :
    Nat → Nat → Option JVal × List Nat
  | _, 0 => (none, [])
  | retries, fuel + 1 =>
    match attempts retries with
    | .netError =>
      if retries < max_retries then
        let r := msrGo attempts max_retries (retries + 1) fuel
        (r.1, 2 :: r.2)
      else (none, [])
    | .response status retryAfter body =>
      if status == 429 then
        let r := msrGo attempts max_retries (retries + 1) fuel
        (r.1, retryAfter.getD 1 :: r.2)
      else if 400 ≤ status then (none, [])
      else (some (body.getD (.obj [])), [])

/-- `make_spotify_request` (lines 158-203): returns the parsed body
(`{}` for an empty body) on success, `None` on failure, together with the
sleeps performed.  `max_retries` defaults to 5 in the Python code. -/
def make_spotify_request (attempts : Nat → HttpAttempt) (max_retries : Nat) :
    Option JVal × List Nat :=
  msrGo attempts max_retries 0 (max_retries + 1)

/-- Outcome of a `make_spotify_request` call as seen by a caller that
parses the payload into `α`, partitioned by Python truthiness:
`fail` is `None` (request failed), `empty` is a successful response whose
falsy body (such as `{}` from an empty response text) fails `if result:`
checks, `ok a` is a truthy payload parsed as `a`. -/
inductive ApiResp (α : Type) : Type where
  | fail : ApiResp α
  | empty : ApiResp α
  | ok (a : α) : ApiResp α

/-- Python truthiness of a request outcome (`if result:`). -/
def ApiResp.truthyR : ApiResp α → Bool
  | .ok _ => true
  | _ => false

/-- Collapse a successful-but-falsy response into a plain failure; callers
that only test truthiness cannot tell the two apart. -/
def ApiResp.collapseEmpty : ApiResp α → ApiResp α
  | .empty => .fail
  | r => r

/-- The payload of a request outcome when it is truthy (`if result:`),
and `none` otherwise. -/
def ApiResp.toOption : ApiResp α → Option α
  | .ok a => some a
  | _ => none

/-- An entry of an `artists` array on an album or track object. -/
structure ArtistRef : Type where
  id : String
  name : String
deriving DecidableEq, Repr

/-- An album object as used by `get_artist_tracks`. -/
structure Album : Type where
  id : String
  artists : List ArtistRef
  release_date : String
deriving DecidableEq, Repr

/-- A track object from an album listing (`albums/{id}/tracks`). -/
structure AlbumTrack : Type where
  id : String
  name : String
  uri : String
  artists : List ArtistRef
deriving DecidableEq, Repr

/-- A track dict as held by the script after `get_artist_tracks`:
an album track, possibly carrying the locally added
`album_release_date` key (`none` models a dict without that key,
so `x.get('album_release_date', '')` is embedded as `getD ""`). -/
structure Track : Type where
  id : String
  name : String
  uri : String
  artists : List ArtistRef
  album_release_date : Option String
deriving DecidableEq, Repr

/-- A raw track-detail object from the `tracks/{id}` endpoint, as fetched by
`get_track_details`: it carries a `popularity` score and, being a fresh API
response, has no `album_release_date` key at all. -/
structure ApiTrack : Type where
  id : String
  name : String
  uri : String
  artists : List ArtistRef
  popularity : Option Int
deriving DecidableEq, Repr

/-- `get_artist_tracks` (lines 342-368), with the results of the two
paginated fetches supplied as arguments: `albums` is what
`get_artist_albums artist_id` returned and `album_tracks i` is what
`get_album_tracks i` returns.  Keeps albums whose `artists` list is
nonempty and whose slice `artists[:1]` contains an entry with the given id
(i.e. the first-listed artist is the given one), then keeps each such
album's tracks filtered the same way on `track['artists'][:1]`, annotating
each with the album's `release_date`. -/
def get_artist_tracks (artist_id : String) (albums : List Album)
    (album_tracks : String → List AlbumTrack) : List Track :=
  let primary_albums := albums.filter fun album =>
    !album.artists.isEmpty && (album.artists.take 1).any fun a => a.id == artist_id
  primary_albums.flatMap fun album =>
    ((album_tracks album.id).filter fun t =>
        (t.artists.take 1).any fun a => a.id == artist_id).map fun t =>
      { id := t.id, name := t.name, uri := t.uri, artists := t.artists,
        album_release_date := some album.release_date }

/-- The deduplication loop of `main` (lines 593-599): `seen` is the
`track_ids` set, here a list with membership via `contains`. -/
def dedupGo : List Track → List String → List Track
  | [], _ => []
  | t :: rest, seen =>
    if seen.contains t.id then dedupGo rest seen
    else t :: dedupGo rest (t.id :: seen)

/-- The `unique_tracks` list built by `main` from the merged `all_tracks`. -/
def dedup_tracks (all_tracks : List Track) : List Track :=
  dedupGo all_tracks []

/-- Sort key of the `'date'` branch of `sort_tracks`:
`x.get('album_release_date', '')`. -/
def dateKey (t : Track) : String :=
  t.album_release_date.getD ""

/-- Sort key of the `'popularity'` branch: `x.get('popularity', 0)`. -/
def popKey (d : ApiTrack) : Int :=
  d.popularity.getD 0

/-- Python's `str.lower()`, embedded character-wise over the string's
characters (Lean's own `String.toLower` is not kernel-reducible). -/
def strLower (s : String) : String := ⟨s.data.map Char.toLower⟩

/-- Result of `sort_tracks`: the `'popularity'` branch returns freshly
fetched track-detail objects, the other branches return the input dicts. -/
inductive SortResult : Type where
  | tracks (l : List Track) : SortResult
  | detailed (l : List ApiTrack) : SortResult
deriving DecidableEq, Repr

/-- `sort_tracks` (lines 374-397).  `get_track_details` is the oracle for
the per-track detail fetch of the `'popularity'` branch (lines 370-372,
a single `make_spotify_request` on `tracks/{id}`).  Python's
`sorted(key=k, reverse=r)` is a stable sort; with `reverse=True` it leaves
elements with equal keys in their original order, which is exactly
`List.mergeSort` with the flipped comparison. -/
def sort_tracks (tracks : List Track) (sort_method sort_order : String)
    (get_track_details : String → ApiResp ApiTrack) : SortResult :=
  let reverse := strLower sort_order == "desc"
  if sort_method == "date" then
    .tracks (if reverse then tracks.mergeSort fun a b => decide (dateKey b ≤ dateKey a)
             else tracks.mergeSort fun a b => decide (dateKey a ≤ dateKey b))
  else if sort_method == "popularity" then
    let detailed_tracks := tracks.filterMap fun t =>
      (get_track_details t.id).toOption
    .detailed (if reverse then detailed_tracks.mergeSort fun a b => decide (popKey b ≤ popKey a)
               else detailed_tracks.mergeSort fun a b => decide (popKey a ≤ popKey b))
  else if sort_method == "name" then
    .tracks (if reverse then tracks.mergeSort fun a b => decide (b.name ≤ a.name)
             else tracks.mergeSort fun a b => decide (a.name ≤ b.name))
  else .tracks tracks

/-- Result of `add_tracks_to_playlist`: the returned boolean, the batches
the API accepted (in submission order), and the 1-based index range
reported on the first failed batch. -/
structure AddResult : Type where
  success : Bool
  accepted : List (List String)
  failedRange : Option (Nat × Nat)
deriving DecidableEq, Repr

/-- The batch loop of `add_tracks_to_playlist` (lines 551-557):
`for i in range(0, len(track_uris), 100)`.  `post i` is the outcome of the
`POST playlists/{id}/tracks` call for the batch starting at offset `i`;
`count` is the number of remaining loop iterations, `i` the current offset.
A batch whose response fails `if not result:` stops the loop. -/
def addGo (post : Nat → ApiResp JVal) (track_uris : List String) :
    Nat → Nat → AddResult
  | 0, _ => ⟨true, [], none⟩
  | count + 1, i =>
    let batch := (track_uris.drop i).take 100
    if (post i).truthyR then
      let r := addGo post track_uris count (i + 100)
      ⟨r.success, batch :: r.accepted, r.failedRange⟩
    else ⟨false, [], some (i + 1, i + batch.length)⟩

/-- `add_tracks_to_playlist` (lines 548-558); the loop runs
`ceil(len(track_uris) / 100)` times. -/
def add_tracks_to_playlist (post : Nat → ApiResp JVal)
    (track_uris : List String) : AddResult :=
  addGo post track_uris ((track_uris.length + 99) / 100) 0

/-- The batches `range(0, len(track_uris), 100)` carves the list into. -/
def chunksGo (track_uris : List String) : Nat → Nat → List (List String)
  | 0, _ => []
  | count + 1, i => (track_uris.drop i).take 100 :: chunksGo track_uris count (i + 100)

/-- The consecutive batches of at most 100 URIs submitted by
`add_tracks_to_playlist` when nothing fails. -/
def chunks100 (track_uris : List String) : List (List String) :=
  chunksGo track_uris ((track_uris.length + 99) / 100) 0

/-- A saved artist choice: `{id, name}` as stored under
`state["artist_choices"][artist_name]`. -/
structure SavedChoice : Type where
  id : String
  name : String
deriving DecidableEq, Repr

/-- The persisted state document (`~/.spotify_playlist_generator_state.json`):
`artist_choices` is a name-keyed dict, embedded as an association list;
the token fields are optional keys. -/
structure PState : Type where
  artist_choices : List (String × SavedChoice)
  access_token : Option String
  refresh_token : Option String
  expires_at : Option Int
deriving DecidableEq, Repr

/-- Dict lookup `state["artist_choices"].get(name)`. -/
def lookupChoice (choices : List (String × SavedChoice)) (name : String) :
    Option SavedChoice :=
  (choices.find? fun p => p.1 == name).map (·.2)

/-- Dict deletion `del state["artist_choices"][name]`. -/
def evictChoice (st : PState) (name : String) : PState :=
  { st with artist_choices := st.artist_choices.filter fun p => !(p.1 == name) }

/-- Dict assignment `state["artist_choices"][name] = {id, name}`:
replace in place when the key exists, append otherwise. -/
def setChoice (st : PState) (name : String) (c : SavedChoice) : PState :=
  if (st.artist_choices.find? fun p => p.1 == name).isSome then
    { st with artist_choices :=
        st.artist_choices.map fun p => if p.1 == name then (name, c) else p }
  else
    { st with artist_choices := st.artist_choices ++ [(name, c)] }

/-- A token response from the refresh-token exchange
(`refresh_access_token`, lines 511-532): `refresh_token` is an optional
key ("Sometimes a new refresh token is provided"). -/
structure RefreshTokenData : Type where
  access_token : String
  refresh_token : Option String
  expires_in : Int
deriving DecidableEq, Repr

/-- A token response from the authorization-code exchange
(`exchange_auth_code`, lines 487-509); `get_user_auth_token` reads
`token_data["refresh_token"]` unconditionally from it. -/
structure ExchangeTokenData : Type where
  access_token : String
  refresh_token : String
  expires_in : Int
deriving DecidableEq, Repr

/-- The cached-token guard of `get_user_auth_token` (lines 405-406):
`"access_token" in state and "expires_at" in state and
state["expires_at"] > current_time + 120`. -/
def tokenCacheValid (st : PState) (now : Int) : Bool :=
  st.access_token.isSome &&
    match st.expires_at with
    | some e => now + 120 < e
    | none => false

/-- Observable events of `get_user_auth_token`, in order: a call to the
refresh-token endpoint, the interactive browser/callback (or manual-entry)
authorization step, a call to the code-exchange endpoint, and a
`save_state` write of the given document. -/
inductive AuthEvent : Type where
  | refreshCall : AuthEvent
  | browserAuth : AuthEvent
  | exchangeCall : AuthEvent
  | save (st : PState) : AuthEvent
deriving DecidableEq, Repr

/-- The state writes contained in an event trace. -/
def savedStates (evs : List AuthEvent) : List PState :=
  evs.filterMap fun e =>
    match e with
    | .save st => some st
    | _ => none

/-- `get_user_auth_token` (lines 399-485).  Oracles: `refreshResult` is the
outcome of `refresh_access_token` (`none` for a failed or falsy token
response — either way `if token_data:` fails and the code falls through to
the interactive flow); `authCode` is the code captured by the callback
server or typed by the operator (`none` for a missing or empty code, which
fails `if not auth_code:`); `exchangeResult` is the outcome of
`exchange_auth_code`.  Returns the token (or `None`) and the event trace. -/
def get_user_auth_token (st : PState) (now : Int)
    (refreshResult : Option RefreshTokenData)
    (authCode : Option String)
    (exchangeResult : Option ExchangeTokenData) :
    Option String × List AuthEvent :=
  if tokenCacheValid st now then (st.access_token, [])
  else
    match st.refresh_token, refreshResult with
    | some _, some td =>
      let st1 : PState :=
        { st with
          access_token := some td.access_token,
          expires_at := some (now + td.expires_in),
          refresh_token :=
            match td.refresh_token with
            | some r => some r
            | none => st.refresh_token }
      (some td.access_token, [.refreshCall, .save st1])
    | rt, _ =>
      let evs1 : List AuthEvent :=
        (if rt.isSome then [.refreshCall] else []) ++ [.browserAuth]
      match authCode with
      | none => (none, evs1)
      | some _ =>
        match exchangeResult with
        | none => (none, evs1 ++ [.exchangeCall])
        | some td =>
          let st1 : PState :=
            { st with
              access_token := some td.access_token,
              refresh_token := some td.refresh_token,
              expires_at := some (now + td.expires_in) }
          (some td.access_token, evs1 ++ [.exchangeCall, .save st1])

/-- An artist object from the search endpoint or an `artists/{id}` lookup. -/
structure Artist : Type where
  id : String
  name : String
  followers : Nat
deriving DecidableEq, Repr

/-- Observable events of `find_artist`: a lookup of `artists/{id}`, a call
to the search endpoint, a `save_state` write. -/
inductive FindEvent : Type where
  | lookupCall (id : String) : FindEvent
  | searchCall (q : String) : FindEvent
  | save (st : PState) : FindEvent
deriving DecidableEq, Repr

/-- The search half of `find_artist` (lines 225-287), entered after the
cache miss or eviction; `st` is the (possibly evicted) in-memory state and
`evs` the events already performed. -/
def findArtistSearch (st : PState) (artist_name : String)
    (search : String → ApiResp (List Artist))
    (choose : List Artist → Option Nat)
    (evs : List FindEvent) : Option Artist × List FindEvent :=
  let evs := evs ++ [.searchCall artist_name]
  match search artist_name with
  | .ok artists =>
    if artists.isEmpty then (none, evs)
    else
      match artists with
      | [artist] =>
        let st1 := setChoice st artist_name ⟨artist.id, artist.name⟩
        (some artist, evs ++ [.save st1])
      | _ =>
        match choose artists with
        | none => (none, evs)
        | some idx =>
          match artists[idx]? with
          | some chosen =>
            let st1 := setChoice st artist_name ⟨chosen.id, chosen.name⟩
            (some chosen, evs ++ [.save st1])
          | none => (none, evs)
  | _ => (none, evs)

/-- `find_artist` (lines 205-287).  Oracles: `lookup i` is the outcome of
`make_spotify_request("artists/" + i)` (the cached-ID validity check tests
its truthiness); `search q` is the outcome of the search call, parsed as
the `results["artists"]["items"]` list — `fail`/`empty` cover a failed
request and a response whose `artists`/`items` chain is missing or falsy;
`choose` abstracts the interactive numbered-choice loop on multiple
results, returning the loop's outcome: `none` for 'q' (skip) or the valid
0-based index the loop eventually accepts (the Python loop re-prompts on
anything else, so an out-of-range index never escapes it; here it is
mapped to the skip outcome).  Returns the chosen artist (or `None`) and
the event trace. -/
def find_artist (st : PState) (artist_name : String)
    (lookup : String → ApiResp Artist)
    (search : String → ApiResp (List Artist))
    (choose : List Artist → Option Nat) :
    Option Artist × List FindEvent :=
  match lookupChoice st.artist_choices artist_name with
  | some c =>
    match lookup c.id with
    | .ok a => (some a, [.lookupCall c.id])
    | _ =>
      let st1 := evictChoice st artist_name
      findArtistSearch st1 artist_name search choose
        [.lookupCall c.id, .save st1]
  | none => findArtistSearch st artist_name search choose []

/-- A first attempt rate-limited with `Retry-After: 7`, a second attempt
succeeding (a concrete request trace for the C1 witness). -/
def att429then200 : Nat → HttpAttempt := fun k =>
  if k == 0 then .response 429 (some 7) none
  else .response 200 none (some (.str "payload"))

/-- Every attempt rate-limited (a concrete request trace for the C1
witness). -/
def attAlways429 : Nat → HttpAttempt := fun _ => .response 429 (some 3) none

/-- A concrete state with a cached artist choice, for the C3 witness. -/
def stCached : PState :=
  ⟨[("Test Artist", ⟨"X", "Test Artist Official"⟩)], none, none, none⟩

/-- A concrete annotated track, for the C10 witness. -/
def trackT9 : Track := ⟨"t9", "S", "u9", [], some "2021"⟩

/-! ## Theorems -/

/-- If every attempt is rate-limited, the retry loop gives up with `None`. -/
theorem msrGo_none_of_all429 (attempts : Nat → HttpAttempt) (max_retries : Nat)
    (h : ∀ k, ∃ ra b, attempts k = HttpAttempt.response 429 ra b) :
    ∀ fuel retries, (msrGo attempts max_retries retries fuel).1 = none := by
  intro fuel
  induction fuel with
  | zero => intro retries; rfl
  | succ f ih =>
    intro retries
    obtain ⟨ra, b, hk⟩ := h retries
    simp [msrGo, hk, ih]

/-- C1: an HTTP 429 response makes `make_spotify_request` sleep for the
`Retry-After` duration (default 1 when the header is absent) and retry,
bounded by the retry counter; a 429 followed by a 200 yields the 200
payload with exactly one sleep of the `Retry-After` duration, and a run of
nothing but 429 responses exhausts the bound and returns `None` instead of
raising. -/
theorem c1_rate_limit_retry :
    (∀ (attempts : Nat → HttpAttempt) (ra : Option Nat) (b : Option JVal)
        (ra2 : Option Nat) (j : JVal) (max_retries : Nat),
        1 ≤ max_retries →
        attempts 0 = HttpAttempt.response 429 ra b →
        attempts 1 = HttpAttempt.response 200 ra2 (some j) →
        make_spotify_request attempts max_retries = (some j, [ra.getD 1]))
  ∧ (∀ (attempts : Nat → HttpAttempt) (max_retries : Nat),
        (∀ k, ∃ ra b, attempts k = HttpAttempt.response 429 ra b) →
        (make_spotify_request attempts max_retries).1 = none) := by
  constructor
  · intro attempts ra b ra2 j max_retries hmr h0 h1
    obtain ⟨m, rfl⟩ : ∃ m, max_retries = m + 1 := ⟨max_retries - 1, by omega⟩
    simp [make_spotify_request, msrGo, h0, h1]
  · intro attempts max_retries h
    exact msrGo_none_of_all429 attempts max_retries h _ _

/-- Witness for C1 at concrete inputs. -/
theorem c1_rate_limit_retry_witness :
    make_spotify_request att429then200 5 = (some (JVal.str "payload"), [7])
  ∧ (make_spotify_request attAlways429 5).1 = none :=
  ⟨c1_rate_limit_retry.1 att429then200 (some 7) none none (JVal.str "payload") 5
      (by omega) rfl rfl,
   c1_rate_limit_retry.2 attAlways429 5 (fun _ => ⟨some 3, none, rfl⟩)⟩

/-- C2: whenever `get_user_auth_token` fails to produce a token, it has
written nothing to the state store: saves happen only after a successful
refresh exchange or a successful authorization-code exchange, both of
which return a token. -/
theorem c2_auth_failure_no_writes (st : PState) (now : Int)
    (rr : Option RefreshTokenData) (ac : Option String)
    (er : Option ExchangeTokenData) :
    (get_user_auth_token st now rr ac er).1 = none →
    savedStates (get_user_auth_token st now rr ac er).2 = [] := by
  intro h
  by_cases hv : tokenCacheValid st now = true
  · simp [get_user_auth_token, hv, savedStates]
  · cases hrt : st.refresh_token <;> cases rr <;> cases ac <;> cases er <;>
      simp [get_user_auth_token, hv, hrt, savedStates] at h ⊢

/-- Witness for C2: an empty state and no authorization code yield no
token and no state writes. -/
theorem c2_auth_failure_no_writes_witness :
    (get_user_auth_token ⟨[], none, none, none⟩ 0 none none none).1 = none ∧
    savedStates (get_user_auth_token ⟨[], none, none, none⟩ 0 none none none).2 = [] :=
  ⟨by decide, c2_auth_failure_no_writes ⟨[], none, none, none⟩ 0 none none none (by decide)⟩

/-- C8: `get_user_auth_token` returns the cached access token with no
endpoint contact and no other action exactly when the saved state has both
an access token and an expiry with `expires_at > now + 120`; otherwise it
proceeds to the refresh-token exchange when a refresh token is saved, and
to the full interactive flow when not. -/
theorem c8_cached_token_fast_path (st : PState) (now : Int)
    (rr : Option RefreshTokenData) (ac : Option String)
    (er : Option ExchangeTokenData) :
    ((get_user_auth_token st now rr ac er = (st.access_token, [])) ↔
        tokenCacheValid st now = true)
  ∧ (tokenCacheValid st now = false →
      (st.refresh_token.isSome = true →
        AuthEvent.refreshCall ∈ (get_user_auth_token st now rr ac er).2)
    ∧ (st.refresh_token = none →
        AuthEvent.browserAuth ∈ (get_user_auth_token st now rr ac er).2)) := by
  by_cases hv : tokenCacheValid st now = true
  · simp [get_user_auth_token, hv]
  · cases hrt : st.refresh_token <;> cases rr <;> cases ac <;> cases er <;>
      simp [get_user_auth_token, hv, hrt]

/-- Witness for C8: a state with a live cached token takes the fast path;
one with an expired token and a refresh token calls the refresh endpoint. -/
theorem c8_cached_token_fast_path_witness :
    (get_user_auth_token ⟨[], some "tok", none, some 1000⟩ 0 none none none =
        (some "tok", []))
  ∧ (AuthEvent.refreshCall ∈
      (get_user_auth_token ⟨[], some "tok", some "ref", some 50⟩ 0 none none none).2) :=
  ⟨(c8_cached_token_fast_path ⟨[], some "tok", none, some 1000⟩ 0 none none none).1.mpr
      (by decide),
   ((c8_cached_token_fast_path ⟨[], some "tok", some "ref", some 50⟩ 0 none none none).2
      (by decide)).1 (by decide)⟩

/-- After `del state["artist_choices"][name]`, the name no longer resolves
in the cache. -/
theorem lookupChoice_evict (st : PState) (name : String) :
    lookupChoice (evictChoice st name).artist_choices name = none := by
  have h : ((st.artist_choices.filter fun p => !(p.1 == name)).find?
      fun p => p.1 == name) = none := by
    rw [List.find?_eq_none]
    intro x hx
    have hfx := List.of_mem_filter hx
    simp at hfx
    simp [hfx]
  simp [lookupChoice, evictChoice, h]

/-- Taking one element past an appended list recovers exactly it. -/
theorem take_one_past (l : List α) (x : α) :
    (l ++ [x]).take (l.length + 1) = l ++ [x] := by
  apply List.take_of_length_le
  simp

/-- Taking one element past an appended list drops a further appended one. -/
theorem take_one_past_two (l : List α) (x y : α) :
    (l ++ [x] ++ [y]).take (l.length + 1) = l ++ [x] := by
  apply List.take_left'
  simp

/-- The search half of `find_artist` always issues the search call first:
the trace up to that point is the incoming events plus the search call. -/
theorem findArtistSearch_trace (st : PState) (name : String)
    (search : String → ApiResp (List Artist)) (choose : List Artist → Option Nat)
    (evs : List FindEvent) :
    (findArtistSearch st name search choose evs).2.take (evs.length + 1) =
      evs ++ [FindEvent.searchCall name] := by
  unfold findArtistSearch
  repeat' split
  all_goals first
  | exact take_one_past evs (FindEvent.searchCall name)
  | exact take_one_past_two evs (FindEvent.searchCall name) _

/-- C3: when a name is cached, `find_artist` issues a single validity
lookup of the cached id and no search; a truthy lookup returns that
artist with the lookup as the only event, and a falsy lookup evicts the
cache entry, saves the state, and falls through to a fresh search. -/
theorem c3_cache_roundtrip (st : PState) (artist_name : String)
    (lookup : String → ApiResp Artist) (search : String → ApiResp (List Artist))
    (choose : List Artist → Option Nat) (c : SavedChoice)
    (hc : lookupChoice st.artist_choices artist_name = some c) :
    (∀ a, lookup c.id = ApiResp.ok a →
        find_artist st artist_name lookup search choose =
          (some a, [FindEvent.lookupCall c.id]))
  ∧ ((lookup c.id).truthyR = false →
        (find_artist st artist_name lookup search choose).2.take 3 =
          [FindEvent.lookupCall c.id, FindEvent.save (evictChoice st artist_name),
           FindEvent.searchCall artist_name]
      ∧ lookupChoice (evictChoice st artist_name).artist_choices artist_name = none) := by
  constructor
  · intro a ha
    simp [find_artist, hc, ha]
  · intro hfalse
    have hl : lookup c.id = ApiResp.fail ∨ lookup c.id = ApiResp.empty := by
      cases h : lookup c.id <;> simp [ApiResp.truthyR, h] at hfalse ⊢
    refine ⟨?_, lookupChoice_evict st artist_name⟩
    obtain hl | hl := hl <;>
    · simp only [find_artist, hc, hl]
      have ht := findArtistSearch_trace (evictChoice st artist_name)
        artist_name search choose
        [FindEvent.lookupCall c.id, FindEvent.save (evictChoice st artist_name)]
      simpa using ht

/-- Witness for C3: with "Test Artist" cached as id "X", a live lookup
returns the artist after only the validity check; a dead lookup evicts,
saves, and searches. -/
theorem c3_cache_roundtrip_witness :
    (find_artist stCached "Test Artist"
        (fun _ => ApiResp.ok ⟨"X", "Test Artist Official", 5⟩)
        (fun _ => ApiResp.fail) (fun _ => none) =
      (some ⟨"X", "Test Artist Official", 5⟩, [FindEvent.lookupCall "X"]))
  ∧ ((find_artist stCached "Test Artist" (fun _ => ApiResp.fail)
        (fun _ => ApiResp.fail) (fun _ => none)).2.take 3 =
        [FindEvent.lookupCall "X", FindEvent.save (evictChoice stCached "Test Artist"),
         FindEvent.searchCall "Test Artist"]
      ∧ lookupChoice (evictChoice stCached "Test Artist").artist_choices
          "Test Artist" = none) :=
  ⟨(c3_cache_roundtrip stCached "Test Artist"
      (fun _ => ApiResp.ok ⟨"X", "Test Artist Official", 5⟩)
      (fun _ => ApiResp.fail) (fun _ => none) ⟨"X", "Test Artist Official"⟩
      (by decide)).1 ⟨"X", "Test Artist Official", 5⟩ rfl,
   (c3_cache_roundtrip stCached "Test Artist" (fun _ => ApiResp.fail)
      (fun _ => ApiResp.fail) (fun _ => none) ⟨"X", "Test Artist Official"⟩
      (by decide)).2 rfl⟩

/-- The `artists[:1]` membership test of the source equals a test on the
first-listed artist. -/
theorem take1_any_eq (l : List ArtistRef) (aid : String) :
    ((l.take 1).any fun a => a.id == aid) =
      (l.head?.map ArtistRef.id == some aid) := by
  cases l <;> simp

/-- The album-side test `album['artists'] and any(... artists[:1])` also
equals the first-listed-artist test. -/
theorem isEmpty_take1_any_eq (l : List ArtistRef) (aid : String) :
    (!l.isEmpty && (l.take 1).any fun a => a.id == aid) =
      (l.head?.map ArtistRef.id == some aid) := by
  cases l <;> simp

/-- A nonemptiness conjunct is redundant next to a first-element test. -/
theorem isEmpty_head_redundant (l : List ArtistRef) (aid : String) :
    (!l.isEmpty && (l.head?.map ArtistRef.id == some aid)) =
      (l.head?.map ArtistRef.id == some aid) := by
  cases l <;> simp

/-- C4: `get_artist_tracks` returns exactly the tracks of albums whose
first-listed artist has the given id, keeping only tracks whose own
first-listed artist has that id, each annotated with its album's release
date. -/
theorem c4_primary_credit_tracks (artist_id : String) (albums : List Album)
    (album_tracks : String → List AlbumTrack) :
    (get_artist_tracks artist_id albums album_tracks =
      (albums.filter fun album =>
          album.artists.head?.map ArtistRef.id == some artist_id).flatMap
        fun album =>
          ((album_tracks album.id).filter fun t =>
              t.artists.head?.map ArtistRef.id == some artist_id).map fun t =>
            { id := t.id, name := t.name, uri := t.uri, artists := t.artists,
              album_release_date := some album.release_date })
  ∧ ∀ x ∈ get_artist_tracks artist_id albums album_tracks,
      ∃ album ∈ albums,
        album.artists.head?.map ArtistRef.id = some artist_id ∧
        x.album_release_date = some album.release_date ∧
        ∃ t ∈ album_tracks album.id,
          t.artists.head?.map ArtistRef.id = some artist_id ∧
          x = { id := t.id, name := t.name, uri := t.uri, artists := t.artists,
                album_release_date := some album.release_date } := by
  have h1 : get_artist_tracks artist_id albums album_tracks =
      (albums.filter fun album =>
          album.artists.head?.map ArtistRef.id == some artist_id).flatMap
        fun album =>
          ((album_tracks album.id).filter fun t =>
              t.artists.head?.map ArtistRef.id == some artist_id).map fun t =>
            { id := t.id, name := t.name, uri := t.uri, artists := t.artists,
              album_release_date := some album.release_date } := by
    simp only [get_artist_tracks, isEmpty_take1_any_eq, take1_any_eq,
      isEmpty_head_redundant]
  refine ⟨h1, ?_⟩
  intro x hx
  rw [h1] at hx
  simp only [List.mem_flatMap, List.mem_filter, List.mem_map, beq_iff_eq] at hx
  obtain ⟨album, ⟨hmem, hhead⟩, t, ⟨htmem, hthead⟩, rfl⟩ := hx
  exact ⟨album, hmem, hhead, rfl, t, htmem, hthead, rfl⟩

/-- Witness for C4 at a concrete album layout: one primary album with a
primary and a featured track, one featured-only album. -/
theorem c4_primary_credit_tracks_witness :
    get_artist_tracks "A"
      [⟨"alb1", [⟨"A", "Art"⟩, ⟨"B", "Guest"⟩], "2023-01-01"⟩,
       ⟨"alb2", [⟨"B", "Guest"⟩, ⟨"A", "Art"⟩], "2020-05-05"⟩]
      (fun i =>
        if i == "alb1" then
          [⟨"t1", "Song1", "uri:t1", [⟨"A", "Art"⟩]⟩,
           ⟨"t2", "Song2", "uri:t2", [⟨"B", "Guest"⟩, ⟨"A", "Art"⟩]⟩]
        else [⟨"t3", "Song3", "uri:t3", [⟨"A", "Art"⟩]⟩]) =
      [⟨"t1", "Song1", "uri:t1", [⟨"A", "Art"⟩], some "2023-01-01"⟩] :=
  (c4_primary_credit_tracks "A"
      [⟨"alb1", [⟨"A", "Art"⟩, ⟨"B", "Guest"⟩], "2023-01-01"⟩,
       ⟨"alb2", [⟨"B", "Guest"⟩, ⟨"A", "Art"⟩], "2020-05-05"⟩]
      (fun i =>
        if i == "alb1" then
          [⟨"t1", "Song1", "uri:t1", [⟨"A", "Art"⟩]⟩,
           ⟨"t2", "Song2", "uri:t2", [⟨"B", "Guest"⟩, ⟨"A", "Art"⟩]⟩]
        else [⟨"t3", "Song3", "uri:t3", [⟨"A", "Art"⟩]⟩])).1.trans (by decide)

/-- The dedup loop returns a sublist of its input (first-seen order kept). -/
theorem dedupGo_sublist : ∀ (l : List Track) (seen : List String),
    (dedupGo l seen).Sublist l := by
  intro l
  induction l with
  | nil => intro seen; simp [dedupGo]
  | cons t rest ih =>
    intro seen
    by_cases h : t.id ∈ seen
    · simpa [dedupGo, h] using (ih seen).cons t
    · simpa [dedupGo, h] using (ih (t.id :: seen)).cons₂ t

/-- The dedup loop keeps, for every id not yet seen, exactly the input's
first occurrence. -/
theorem dedupGo_find? : ∀ (l : List Track) (seen : List String) (i : String),
    ¬ i ∈ seen →
    (dedupGo l seen).find? (fun t => t.id == i) =
      l.find? (fun t => t.id == i) := by
  intro l
  induction l with
  | nil => intro seen i _; rfl
  | cons t rest ih =>
    intro seen i hi
    by_cases hti : t.id = i
    · subst hti
      simp [dedupGo, hi, List.find?]
    · have hne : (t.id == i) = false := by simp [hti]
      by_cases hs : t.id ∈ seen
      · simp [dedupGo, hs, List.find?, hne, ih seen i hi]
      · have hi' : ¬ i ∈ (t.id :: seen) := by
          intro hmem
          rcases List.mem_cons.mp hmem with h | h
          · exact hti h.symm
          · exact hi h
        simp [dedupGo, hs, List.find?, hne, ih (t.id :: seen) i hi']

/-- The dedup loop emits no id twice, and none that was already seen. -/
theorem dedupGo_nodup : ∀ (l : List Track) (seen : List String),
    ((dedupGo l seen).map (fun t => t.id)).Nodup ∧
    ∀ t ∈ dedupGo l seen, ¬ t.id ∈ seen := by
  intro l
  induction l with
  | nil => intro seen; simp [dedupGo]
  | cons t rest ih =>
    intro seen
    by_cases hs : t.id ∈ seen
    · simpa [dedupGo, hs] using ih seen
    · obtain ⟨ihn, ihm⟩ := ih (t.id :: seen)
      have hunfold : dedupGo (t :: rest) seen = t :: dedupGo rest (t.id :: seen) := by
        simp [dedupGo, hs]
      refine ⟨?_, ?_⟩
      · rw [hunfold, List.map_cons, List.nodup_cons]
        refine ⟨?_, ihn⟩
        intro hmem
        obtain ⟨u, hu, huid⟩ := List.mem_map.mp hmem
        exact ihm u hu (huid ▸ List.mem_cons_self _ _)
      · intro u hu
        rw [hunfold] at hu
        rcases List.mem_cons.mp hu with rfl | hu
        · exact hs
        · exact fun hm => ihm u hu (List.mem_cons_of_mem _ hm)

/-- C5: the deduplication step of `main` keeps each track id exactly once,
keeping the input's first occurrence of every id and preserving first-seen
order. -/
theorem c5_dedup (all_tracks : List Track) :
    (dedup_tracks all_tracks).Sublist all_tracks
  ∧ ((dedup_tracks all_tracks).map (fun t => t.id)).Nodup
  ∧ (∀ i, (dedup_tracks all_tracks).find? (fun t => t.id == i) =
        all_tracks.find? (fun t => t.id == i))
  ∧ (∀ i, i ∈ all_tracks.map (fun t => t.id) →
        ((dedup_tracks all_tracks).map (fun t => t.id)).count i = 1) := by
  have hnd := (dedupGo_nodup all_tracks []).1
  have hfind : ∀ i, (dedup_tracks all_tracks).find? (fun t => t.id == i) =
      all_tracks.find? (fun t => t.id == i) := by
    intro i
    exact dedupGo_find? all_tracks [] i (by simp)
  refine ⟨dedupGo_sublist all_tracks [], hnd, hfind, ?_⟩
  intro i hi
  apply List.count_eq_one_of_mem hnd
  obtain ⟨u, hu, huid⟩ := List.mem_map.mp hi
  have hsome : (all_tracks.find? (fun t => t.id == i)).isSome := by
    rw [List.find?_isSome]
    exact ⟨u, hu, by simp [huid]⟩
  rw [← hfind i, List.find?_isSome] at hsome
  obtain ⟨v, hv, hvid⟩ := hsome
  exact List.mem_map.mpr ⟨v, hv, by simpa using hvid⟩

/-- Witness for C5: two artists contributing the same track id yield a
single occurrence, first-seen order preserved. -/
theorem c5_dedup_witness :
    (dedup_tracks
        [⟨"t1", "S", "u1", [], some "2020"⟩, ⟨"t2", "T", "u2", [], some "2021"⟩,
         ⟨"t1", "S", "u1", [], some "2020"⟩] =
      [⟨"t1", "S", "u1", [], some "2020"⟩, ⟨"t2", "T", "u2", [], some "2021"⟩])
  ∧ ((dedup_tracks
        [⟨"t1", "S", "u1", [], some "2020"⟩, ⟨"t2", "T", "u2", [], some "2021"⟩,
         ⟨"t1", "S", "u1", [], some "2020"⟩]).map (fun t => t.id)).count "t1" = 1 :=
  ⟨by decide,
   (c5_dedup
      [⟨"t1", "S", "u1", [], some "2020"⟩, ⟨"t2", "T", "u2", [], some "2021"⟩,
       ⟨"t1", "S", "u1", [], some "2020"⟩]).2.2.2 "t1" (by decide)⟩

/-- Key-based comparisons are transitive. -/
theorem decideLe_trans {α β : Type} [LinearOrder β] (f : α → β) :
    ∀ a b c : α, decide (f a ≤ f b) = true → decide (f b ≤ f c) = true →
      decide (f a ≤ f c) = true := by
  intro a b c hab hbc
  simp only [decide_eq_true_eq] at *
  exact le_trans hab hbc

/-- Key-based comparisons are total. -/
theorem decideLe_total {α β : Type} [LinearOrder β] (f : α → β) :
    ∀ a b : α, (decide (f a ≤ f b) || decide (f b ≤ f a)) = true := by
  intro a b
  simp only [Bool.or_eq_true, decide_eq_true_eq]
  exact le_total (f a) (f b)

/-- Flipped key-based comparisons are transitive. -/
theorem decideGe_trans {α β : Type} [LinearOrder β] (f : α → β) :
    ∀ a b c : α, decide (f b ≤ f a) = true → decide (f c ≤ f b) = true →
      decide (f c ≤ f a) = true := by
  intro a b c hab hbc
  simp only [decide_eq_true_eq] at *
  exact le_trans hbc hab

/-- Flipped key-based comparisons are total. -/
theorem decideGe_total {α β : Type} [LinearOrder β] (f : α → β) :
    ∀ a b : α, (decide (f b ≤ f a) || decide (f a ≤ f b)) = true := by
  intro a b
  simp only [Bool.or_eq_true, decide_eq_true_eq]
  exact le_total (f b) (f a)

/-- Stability of `mergeSort` as a filter identity: the elements of any
class on which the comparison always holds (e.g. an equal-keys class) come
out in exactly their original order. -/
theorem filter_mergeSort_eq {α : Type} (le : α → α → Bool)
    (htrans : ∀ a b c, le a b = true → le b c = true → le a c = true)
    (htotal : ∀ a b, (le a b || le b a) = true)
    (p : α → Bool) (hp : ∀ a b, p a = true → p b = true → le a b = true)
    (l : List α) :
    (l.mergeSort le).filter p = l.filter p := by
  have hpair : (l.filter p).Pairwise (fun a b => le a b = true) := by
    apply List.pairwise_of_forall_mem_list
    intro a ha b hb
    exact hp a b (List.of_mem_filter ha) (List.of_mem_filter hb)
  have h1 : (l.filter p).Sublist (l.mergeSort le) :=
    List.sublist_mergeSort htrans htotal hpair (List.filter_sublist l)
  have h2 := h1.filter p
  have h3 : (l.filter p).filter p = l.filter p :=
    List.filter_eq_self.mpr fun a ha => List.of_mem_filter ha
  rw [h3] at h2
  have hperm : ((l.mergeSort le).filter p).Perm (l.filter p) :=
    (List.mergeSort_perm l le).filter p
  exact (h2.eq_of_length hperm.length_eq.symm).symm

/-- C6: `sort_tracks` with method `'date'` permutes its input into
lexicographically ascending `album_release_date` order for `'asc'` and
descending order for `'desc'` (a missing date sorting as `""`), and in
both directions tracks with equal dates keep their original relative
order. -/
theorem c6_sort_by_date (tracks : List Track) (fetch : String → ApiResp ApiTrack) :
    (∃ out, sort_tracks tracks "date" "asc" fetch = SortResult.tracks out ∧
        out.Perm tracks ∧
        out.Pairwise (fun a b => dateKey a ≤ dateKey b) ∧
        ∀ d, out.filter (fun t => dateKey t == d) =
          tracks.filter (fun t => dateKey t == d))
  ∧ (∃ out, sort_tracks tracks "date" "desc" fetch = SortResult.tracks out ∧
        out.Perm tracks ∧
        out.Pairwise (fun a b => dateKey b ≤ dateKey a) ∧
        ∀ d, out.filter (fun t => dateKey t == d) =
          tracks.filter (fun t => dateKey t == d)) := by
  constructor
  · refine ⟨tracks.mergeSort (fun a b => decide (dateKey a ≤ dateKey b)),
      rfl, List.mergeSort_perm tracks _, ?_, ?_⟩
    · have hs := List.sorted_mergeSort (decideLe_trans dateKey)
        (decideLe_total dateKey) tracks
      exact hs.imp (fun h => by simpa using h)
    · intro d
      refine filter_mergeSort_eq _ (decideLe_trans dateKey) (decideLe_total dateKey)
        (fun t => dateKey t == d) ?_ tracks
      intro a b ha hb
      simp only [beq_iff_eq] at ha hb
      rw [ha, hb]
      simp
  · refine ⟨tracks.mergeSort (fun a b => decide (dateKey b ≤ dateKey a)),
      rfl, List.mergeSort_perm tracks _, ?_, ?_⟩
    · have hs := List.sorted_mergeSort (decideGe_trans dateKey)
        (decideGe_total dateKey) tracks
      exact hs.imp (fun h => by simpa using h)
    · intro d
      refine filter_mergeSort_eq _ (decideGe_trans dateKey) (decideGe_total dateKey)
        (fun t => dateKey t == d) ?_ tracks
      intro a b ha hb
      simp only [beq_iff_eq] at ha hb
      rw [ha, hb]
      simp

/-- Witness for C6 at the spec's example dates 2010, 2015, 2023. -/
theorem c6_sort_by_date_witness :
    (∃ out, sort_tracks
        [⟨"a", "Old", "u1", [], some "2010-01-01"⟩,
         ⟨"b", "New", "u2", [], some "2023-01-01"⟩,
         ⟨"c", "Mid", "u3", [], some "2015-01-01"⟩] "date" "asc"
        (fun _ => ApiResp.fail) = SortResult.tracks out ∧
        out.Perm
          [⟨"a", "Old", "u1", [], some "2010-01-01"⟩,
           ⟨"b", "New", "u2", [], some "2023-01-01"⟩,
           ⟨"c", "Mid", "u3", [], some "2015-01-01"⟩] ∧
        out.Pairwise (fun a b => dateKey a ≤ dateKey b) ∧
        ∀ d, out.filter (fun t => dateKey t == d) =
          [⟨"a", "Old", "u1", [], some "2010-01-01"⟩,
           ⟨"b", "New", "u2", [], some "2023-01-01"⟩,
           ⟨"c", "Mid", "u3", [], some "2015-01-01"⟩].filter (fun t => dateKey t == d))
  ∧ (∃ out, sort_tracks
        [⟨"a", "Old", "u1", [], some "2010-01-01"⟩,
         ⟨"b", "New", "u2", [], some "2023-01-01"⟩,
         ⟨"c", "Mid", "u3", [], some "2015-01-01"⟩] "date" "desc"
        (fun _ => ApiResp.fail) = SortResult.tracks out ∧
        out.Perm
          [⟨"a", "Old", "u1", [], some "2010-01-01"⟩,
           ⟨"b", "New", "u2", [], some "2023-01-01"⟩,
           ⟨"c", "Mid", "u3", [], some "2015-01-01"⟩] ∧
        out.Pairwise (fun a b => dateKey b ≤ dateKey a) ∧
        ∀ d, out.filter (fun t => dateKey t == d) =
          [⟨"a", "Old", "u1", [], some "2010-01-01"⟩,
           ⟨"b", "New", "u2", [], some "2023-01-01"⟩,
           ⟨"c", "Mid", "u3", [], some "2015-01-01"⟩].filter (fun t => dateKey t == d)) :=
  c6_sort_by_date
    [⟨"a", "Old", "u1", [], some "2010-01-01"⟩,
     ⟨"b", "New", "u2", [], some "2023-01-01"⟩,
     ⟨"c", "Mid", "u3", [], some "2015-01-01"⟩] (fun _ => ApiResp.fail)

/-- The chunk list has one entry per loop iteration. -/
theorem chunksGo_length (track_uris : List String) :
    ∀ count i, (chunksGo track_uris count i).length = count := by
  intro count
  induction count with
  | zero => intro i; rfl
  | succ c ih => intro i; simp [chunksGo, ih]

/-- The `k`-th chunk starts at offset `i + 100 * k`. -/
theorem chunksGo_getD (track_uris : List String) :
    ∀ count i k, k < count →
      (chunksGo track_uris count i).getD k [] =
        (track_uris.drop (i + 100 * k)).take 100 := by
  intro count
  induction count with
  | zero => intro i k hk; omega
  | succ c ih =>
    intro i k hk
    cases k with
    | zero => simp [chunksGo]
    | succ k =>
      have hrec := ih (i + 100) k (by omega)
      have harith : i + 100 + 100 * k = i + 100 * (k + 1) := by ring
      simp only [chunksGo, List.getD_cons_succ]
      rw [hrec, harith]

/-- Concatenating the chunks recovers a prefix of the list. -/
theorem chunksGo_flatten (track_uris : List String) :
    ∀ count i, (chunksGo track_uris count i).flatten =
      (track_uris.drop i).take (100 * count) := by
  intro count
  induction count with
  | zero => intro i; simp [chunksGo]
  | succ c ih =>
    intro i
    have harith : 100 * (c + 1) = 100 + 100 * c := by ring
    rw [chunksGo]
    simp only [List.flatten_cons, ih (i + 100), harith, List.take_add]
    congr 1
    rw [List.drop_drop]

/-- If every batch up to the iteration bound succeeds, the loop accepts
every chunk and returns `True`. -/
theorem addGo_success (post : Nat → ApiResp JVal) (track_uris : List String) :
    ∀ count i, (∀ j, j < count → (post (i + 100 * j)).truthyR = true) →
      addGo post track_uris count i = ⟨true, chunksGo track_uris count i, none⟩ := by
  intro count
  induction count with
  | zero => intro i _; rfl
  | succ c ih =>
    intro i h
    have h0 : (post i).truthyR = true := by simpa using h 0 (by omega)
    have hrec := ih (i + 100) fun j hj => by
      have := h (j + 1) (by omega)
      have harith : i + 100 * (j + 1) = i + 100 + 100 * j := by ring
      rwa [harith] at this
    simp [addGo, chunksGo, h0, hrec]

/-- If the `j`-th batch is the first to fail, the loop stops there with the
chunks before it accepted and the failing range reported. -/
theorem addGo_failure (post : Nat → ApiResp JVal) (track_uris : List String) :
    ∀ count j i, j < count →
      (post (i + 100 * j)).truthyR = false →
      (∀ k, k < j → (post (i + 100 * k)).truthyR = true) →
      addGo post track_uris count i =
        ⟨false, (chunksGo track_uris count i).take j,
         some (i + 100 * j + 1,
           i + 100 * j + ((track_uris.drop (i + 100 * j)).take 100).length)⟩ := by
  intro count
  induction count with
  | zero => intro j i hj; omega
  | succ c ih =>
    intro j i hj hfail hok
    match j with
    | 0 =>
      have h0 : (post i).truthyR = false := by simpa using hfail
      simp [addGo, chunksGo, h0]
    | j + 1 =>
      have h0 : (post i).truthyR = true := by simpa using hok 0 (by omega)
      have harith : i + 100 * (j + 1) = i + 100 + 100 * j := by ring
      have hrec := ih j (i + 100) (by omega) (by rwa [harith] at hfail)
        fun k hk => by
          have := hok (k + 1) (by omega)
          have ha : i + 100 * (k + 1) = i + 100 + 100 * k := by ring
          rwa [ha] at this
      simp [addGo, chunksGo, h0, hrec, harith]

/-- C7: `add_tracks_to_playlist` submits the URI list as consecutive
batches of at most 100 in order; if every batch succeeds it returns
`True` with all chunks accepted; the first failing batch makes it report
the 1-based range of that batch, submit nothing further, and return
`False`, the previously accepted batches remaining in the result. -/
theorem c7_batch_upload (post : Nat → ApiResp JVal) (track_uris : List String) :
    (chunks100 track_uris).flatten = track_uris
  ∧ (∀ b ∈ chunks100 track_uris, 0 < b.length ∧ b.length ≤ 100)
  ∧ ((∀ j, j < (chunks100 track_uris).length → (post (100 * j)).truthyR = true) →
      add_tracks_to_playlist post track_uris =
        ⟨true, chunks100 track_uris, none⟩)
  ∧ (∀ j, j < (chunks100 track_uris).length →
      (post (100 * j)).truthyR = false →
      (∀ k, k < j → (post (100 * k)).truthyR = true) →
      add_tracks_to_playlist post track_uris =
        ⟨false, (chunks100 track_uris).take j,
         some (100 * j + 1, 100 * j + ((chunks100 track_uris).getD j []).length)⟩) := by
  have hlen : (chunks100 track_uris).length = (track_uris.length + 99) / 100 :=
    chunksGo_length track_uris ((track_uris.length + 99) / 100) 0
  refine ⟨?_, ?_, ?_, ?_⟩
  · rw [chunks100, chunksGo_flatten]
    simp only [List.drop_zero]
    apply List.take_of_length_le
    omega
  · intro b hb
    obtain ⟨k, hk, hbk⟩ := List.mem_iff_getElem.mp hb
    have hkn : k < (track_uris.length + 99) / 100 := by
      rw [hlen] at hk
      exact hk
    have hget : (chunks100 track_uris).getD k [] =
        (track_uris.drop (0 + 100 * k)).take 100 :=
      chunksGo_getD track_uris _ 0 k hkn
    rw [List.getD_eq_getElem?_getD, List.getElem?_eq_getElem hk, Option.getD_some,
      hbk] at hget
    rw [hget]
    simp only [List.length_take, List.length_drop]
    omega
  · intro h
    rw [hlen] at h
    rw [add_tracks_to_playlist, chunks100]
    exact addGo_success post track_uris _ 0 fun j hj => by
      simpa using h j hj
  · intro j hj hfail hok
    rw [hlen] at hj
    have hrange := chunksGo_getD track_uris ((track_uris.length + 99) / 100) 0 j hj
    rw [add_tracks_to_playlist]
    rw [addGo_failure post track_uris _ j 0 hj (by simpa using hfail)
      (fun k hk => by simpa using hok k hk)]
    rw [chunks100, hrange]
    simp

set_option maxRecDepth 4000 in
/-- Witness for C7: 150 URIs split into batches of 100 and 50; with every
batch accepted the call returns `True`, and with the second batch refused
it reports the range 101 to 150 and returns `False`. -/
theorem c7_batch_upload_witness :
    (add_tracks_to_playlist (fun _ => ApiResp.ok (JVal.str "snap"))
        ((List.range 150).map toString) =
      ⟨true, chunks100 ((List.range 150).map toString), none⟩)
  ∧ (add_tracks_to_playlist
        (fun i => if i == 0 then ApiResp.ok (JVal.str "snap") else ApiResp.fail)
        ((List.range 150).map toString) =
      ⟨false, (chunks100 ((List.range 150).map toString)).take 1,
       some (101, 100 + ((chunks100 ((List.range 150).map toString)).getD 1 []).length)⟩) := by
  have hlen : (chunks100 ((List.range 150).map toString)).length = 2 := by
    have h := chunksGo_length ((List.range 150).map toString)
      ((((List.range 150).map toString).length + 99) / 100) 0
    rw [chunks100, h]
    simp
  constructor
  · exact (c7_batch_upload (fun _ => ApiResp.ok (JVal.str "snap"))
      ((List.range 150).map toString)).2.2.1 (fun j _ => rfl)
  · have h := (c7_batch_upload
        (fun i => if i == 0 then ApiResp.ok (JVal.str "snap") else ApiResp.fail)
        ((List.range 150).map toString)).2.2.2 1 (by rw [hlen]; omega) rfl
        (fun k hk => by
          have hk0 : k = 0 := by omega
          subst hk0
          rfl)
    exact h

/-- Collapsing empty responses to failures does not change truthiness. -/
theorem truthyR_collapseEmpty {α : Type} (r : ApiResp α) :
    r.collapseEmpty.truthyR = r.truthyR := by
  cases r <;> rfl

/-- The batch loop cannot distinguish an empty success from a failure. -/
theorem addGo_collapse (post : Nat → ApiResp JVal) (track_uris : List String) :
    ∀ count i, addGo (fun k => (post k).collapseEmpty) track_uris count i =
      addGo post track_uris count i := by
  intro count
  induction count with
  | zero => intro i; rfl
  | succ c ih =>
    intro i
    simp only [addGo, truthyR_collapseEmpty, ih]

/-- C9: a successful (status < 400) response with an empty body makes
`make_spotify_request` return the empty JSON object `{}` rather than a
failure; `{}` is falsy, so the truthiness checks in
`add_tracks_to_playlist` and in `find_artist`'s cached-id validity test
treat such a response exactly as they treat a failed request. -/
theorem c9_empty_body_falsy :
    (∀ (attempts : Nat → HttpAttempt) (status : Nat) (ra : Option Nat)
        (max_retries : Nat),
        attempts 0 = HttpAttempt.response status ra none →
        status < 400 →
        make_spotify_request attempts max_retries = (some (JVal.obj []), []))
  ∧ (JVal.obj []).truthy = false
  ∧ (∀ (post : Nat → ApiResp JVal) (track_uris : List String),
        add_tracks_to_playlist (fun k => (post k).collapseEmpty) track_uris =
          add_tracks_to_playlist post track_uris)
  ∧ (∀ (st : PState) (artist_name : String) (lookup : String → ApiResp Artist)
        (search : String → ApiResp (List Artist)) (choose : List Artist → Option Nat),
        find_artist st artist_name (fun i => (lookup i).collapseEmpty) search choose =
          find_artist st artist_name lookup search choose) := by
  refine ⟨?_, rfl, ?_, ?_⟩
  · intro attempts status ra max_retries h0 hlt
    have h429 : (status == 429) = false := by
      rw [beq_eq_false_iff_ne]
      omega
    have h400 : ¬ 400 ≤ status := by omega
    simp [make_spotify_request, msrGo, h0, h429, h400]
  · intro post track_uris
    exact addGo_collapse post track_uris _ 0
  · intro st artist_name lookup search choose
    cases hch : lookupChoice st.artist_choices artist_name with
    | none => simp [find_artist, hch]
    | some c =>
      cases hl : lookup c.id <;>
        simp [find_artist, hch, hl, ApiResp.collapseEmpty]

/-- Witness for C9: a 200 response with empty body yields `{}` and no
sleep; an all-empty posting oracle behaves like an all-failing one. -/
theorem c9_empty_body_falsy_witness :
    (make_spotify_request (fun _ => HttpAttempt.response 200 none none) 5 =
      (some (JVal.obj []), []))
  ∧ (add_tracks_to_playlist (fun _k => (ApiResp.empty (α := JVal)).collapseEmpty) ["u"] =
      add_tracks_to_playlist (fun _ => ApiResp.empty) ["u"]) :=
  ⟨c9_empty_body_falsy.1 (fun _ => HttpAttempt.response 200 none none) 200 none 5
      rfl (by omega),
   c9_empty_body_falsy.2.2.1 (fun _ => ApiResp.empty) ["u"]⟩

/-- C10: `sort_tracks` with method `'popularity'` rebuilds its output from
fresh per-track detail fetches: the result is a permutation of the list of
successfully fetched detail records (failed fetches silently omitted, so
it need not be a permutation of the input), every element is a fetched
raw `tracks/{id}` record — which carries no `album_release_date`
annotation — and a failing fetch oracle shrinks the output. -/
theorem c10_popularity_refetch (tracks : List Track)
    (fetch : String → ApiResp ApiTrack) (sort_order : String) :
    (∃ out, sort_tracks tracks "popularity" sort_order fetch =
        SortResult.detailed out ∧
        out.Perm (tracks.filterMap fun t => (fetch t.id).toOption) ∧
        ∀ x ∈ out, ∃ t ∈ tracks, fetch t.id = ApiResp.ok x)
  ∧ sort_tracks [⟨"t1", "S", "u1", [], some "2020"⟩] "popularity" "asc"
      (fun _ => ApiResp.fail) = SortResult.detailed [] := by
  have hmem : ∀ (le : ApiTrack → ApiTrack → Bool) (x : ApiTrack),
      x ∈ (tracks.filterMap fun t => (fetch t.id).toOption).mergeSort le →
      ∃ t ∈ tracks, fetch t.id = ApiResp.ok x := by
    intro le x hx
    rw [List.mem_mergeSort] at hx
    obtain ⟨t, ht, hft⟩ := List.mem_filterMap.mp hx
    refine ⟨t, ht, ?_⟩
    cases hf : fetch t.id <;> rw [hf] at hft <;>
      simp [ApiResp.toOption] at hft
    rw [hft]
  have hunf : sort_tracks tracks "popularity" sort_order fetch =
      SortResult.detailed (if strLower sort_order == "desc" then
          (tracks.filterMap fun t => (fetch t.id).toOption).mergeSort
            (fun a b => decide (popKey b ≤ popKey a))
        else
          (tracks.filterMap fun t => (fetch t.id).toOption).mergeSort
            (fun a b => decide (popKey a ≤ popKey b))) := rfl
  constructor
  · by_cases hrev : (strLower sort_order == "desc") = true
    · rw [hunf, if_pos hrev]
      exact ⟨_, rfl, List.mergeSort_perm _ _, hmem _⟩
    · rw [hunf, if_neg hrev]
      exact ⟨_, rfl, List.mergeSort_perm _ _, hmem _⟩
  · simp [sort_tracks, List.filterMap, ApiResp.toOption]

/-- Witness for C10 at a concrete input where one fetch fails: the output
omits that track. -/
theorem c10_popularity_refetch_witness :
    (∃ out, sort_tracks [trackT9] "popularity" "asc"
        (fun _ => ApiResp.fail) = SortResult.detailed out ∧
        out.Perm ([trackT9].filterMap
          fun _t => (ApiResp.fail (α := ApiTrack)).toOption) ∧
        ∀ x ∈ out, ∃ _t ∈ [trackT9],
          (ApiResp.fail (α := ApiTrack)) = ApiResp.ok x)
  ∧ sort_tracks [⟨"t1", "S", "u1", [], some "2020"⟩] "popularity" "asc"
      (fun _ => ApiResp.fail) = SortResult.detailed [] :=
  c10_popularity_refetch [trackT9] (fun _ => ApiResp.fail) "asc"

end SPG



